import Mathlib

/-!
# Verification of the AI-Hub backend core against its specification

Shallow embedding, in Lean 4, of the parts of the AI-Hub backend that the
frozen claims C1..C10 are about, together with theorems settling each claim.

Each definition is translated from the Python source under `src/backend/app`:
pure functions become Lean functions, stateful code becomes explicit state
passing or a step relation, fallible code returns `Option`/`Except`, and
external libraries (tiktoken, Fernet, httpx, json, the database) are
represented by explicit parameters or by the data they would have produced.
Python `datetime` timestamps are modelled as `Int` minutes, `Decimal` money as
`ℚ`, and token counts as `Int`/`Nat`.
-/

namespace AIHub

/-! ## Chunker — `src/backend/app/utils/chunker.py`

`TextChunker.chunk_text` first normalises whitespace and encodes the text with
tiktoken (external); we model the function from the token list onward, with a
token represented as its integer id.  The `while` loop is modelled with
explicit fuel: `chunkLoop fuel …` returns `some chunks` exactly when the
Python loop exits within `fuel` iterations, and `none` when `fuel` runs out,
so "the loop terminates" is `∃ fuel, … = some _`.
-/

namespace Chunker

/-- `TextChunk` dataclass: the decoded text is kept as the token slice, since
tiktoken's `decode` is external. -/
structure TextChunk where
  toks : List Int
  index : Nat
  tokenCount : Nat
deriving Repr, DecidableEq

/-- Python index normalisation for a slice bound: negative indices count from
the end (clamped at 0), positive ones are clamped at the length. -/
def pyIndex (len : Nat) (i : Int) : Nat :=
  if i < 0 then ((len : Int) + i).toNat else min i.toNat len

/-- Python list slicing `xs[a:b]`. -/
def pySlice {α : Type} (xs : List α) (a b : Int) : List α :=
  (xs.take (pyIndex xs.length b)).drop (pyIndex xs.length a)

/-- The body of `chunk_text`'s `while start < total_tokens` loop
(`chunker.py` lines 84–108), one constructor argument per mutable local:
`start` (an `Int`, as in Python it can go negative), `index`, and the
accumulated `chunks`.  Per iteration: `end = min(start + chunk_size, total)`,
a chunk is appended, `start = end - chunk_overlap`, and the loop exits only
when the new `start ≥ total_tokens` (the `break` guard; the `while` condition
re-checks the same bound). -/
def chunkLoop (cs ov : Nat) (tokens : List Int) :
    Nat → Int → Nat → List TextChunk → Option (List TextChunk)
  | 0, _, _, _ => none
  | fuel + 1, start, index, acc =>
    if (tokens.length : Int) ≤ min (start + (cs : Int)) (tokens.length : Int) - (ov : Int) then
      some (acc ++ [⟨pySlice tokens start (min (start + (cs : Int)) (tokens.length : Int)), index,
        (pySlice tokens start (min (start + (cs : Int)) (tokens.length : Int))).length⟩])
    else
      chunkLoop cs ov tokens fuel
        (min (start + (cs : Int)) (tokens.length : Int) - (ov : Int)) (index + 1)
        (acc ++ [⟨pySlice tokens start (min (start + (cs : Int)) (tokens.length : Int)), index,
          (pySlice tokens start (min (start + (cs : Int)) (tokens.length : Int))).length⟩])

/-- `TextChunker.chunk_text` from the encoded token list onward: empty input
yields `[]`, input of at most `chunk_size` tokens yields a single chunk, and
otherwise the sliding-window loop runs (with the given fuel). -/
def chunkText (cs ov fuel : Nat) (tokens : List Int) : Option (List TextChunk) :=
  if tokens.length = 0 then some []
  else if tokens.length ≤ cs then some [⟨tokens, 0, tokens.length⟩]
  else chunkLoop cs ov tokens fuel 0 0 []

/-- The loop can only exit through its `start >= total_tokens` guard, and with
`chunk_overlap ≥ 1` the new `start = end − overlap ≤ total − 1` at every
iteration, so the guard never fires: no fuel suffices. -/
theorem chunkLoop_eq_none (cs ov : Nat) (tokens : List Int) (hov : 1 ≤ ov) :
    ∀ (fuel : Nat) (start : Int) (index : Nat) (acc : List TextChunk),
      chunkLoop cs ov tokens fuel start index acc = none := by
  intro fuel
  induction fuel with
  | zero => intro start index acc; rfl
  | succ n ih =>
    intro start index acc
    have hov' : (1 : Int) ≤ (ov : Int) := by exact_mod_cast hov
    have h1 : min (start + (cs : Int)) (tokens.length : Int) ≤ (tokens.length : Int) :=
      min_le_right _ _
    have h2 : min (start + (cs : Int)) (tokens.length : Int) - (ov : Int) <
        (tokens.length : Int) := by linarith
    simp only [chunkLoop]
    rw [if_neg (not_le.mpr h2)]
    exact ih _ _ _

/-- C1: the claim states that `chunk_text` terminates on every input, in
particular when `chunk_overlap ≥ chunk_size`.  The code violates it: for any
`chunk_overlap ≥ 1` and any text of more than `chunk_size` tokens — including
the default configuration 512/50 and the configurations its own test suite
exercises — the loop never reaches its exit guard, so `chunk_text` returns no
result for any amount of fuel: the Python loop runs forever. -/
theorem chunkText_diverges (cs ov : Nat) (tokens : List Int)
    (hov : 1 ≤ ov) (hlen : cs < tokens.length) (fuel : Nat) :
    chunkText cs ov fuel tokens = none := by
  unfold chunkText
  rw [if_neg (by omega), if_neg (by omega)]
  exact chunkLoop_eq_none cs ov tokens hov fuel 0 0 []

/-- Witness for C1's theorem at the failing input
`TextChunker(chunk_size=2, chunk_overlap=2)` on a 3-token text. -/
theorem chunkText_diverges_witness :
    1 ≤ 2 ∧ 2 < ([0, 1, 2] : List Int).length ∧ chunkText 2 2 1000 [0, 1, 2] = none :=
  ⟨by decide, by decide, chunkText_diverges 2 2 [0, 1, 2] (by decide) (by decide) 1000⟩

end Chunker

/-! ## LLM streamer — `src/backend/app/services/openrouter_service.py`

`OpenRouterService.stream_chat_completion` (lines 269–397).  The upstream
HTTP exchange is represented by the response's status code, its body (read
only on the error path) and the list of SSE lines; `json.loads` plus the
`choices[0].delta` / `usage` dictionary accesses are represented by a parsed
frame, with `none` for a malformed line (`json.JSONDecodeError`).  Raising an
exception to the caller is `Except.error`; a normal run yields the list of
generated events. -/

namespace OpenRouter

/-- `OpenRouterError(message, status_code)` from `app/core/exceptions.py`:
`message` is what `str(e)` shows. -/
structure ORError where
  message : String
  statusCode : Option Nat
deriving Repr, DecidableEq

/-- The `OpenRouterError` constructor prepends `"OpenRouter API error: "` to
the message it is given (exceptions.py lines 85–90). -/
def mkORError (message : String) (statusCode : Option Nat) : ORError :=
  ⟨"OpenRouter API error: " ++ message, statusCode⟩

/-- Events yielded by the streaming generator. -/
inductive StreamEvent where
  | content (c : String)
  | done (accumulated : String) (promptTokens completionTokens : Nat)
deriving Repr, DecidableEq

/-- The result of `json.loads(data_str)` plus the dictionary accesses the loop
performs: `choices[0].delta.content` collapsed to an optional string (absent
choices, absent key, `null` and `""` are all falsy in the code, hence
`none`/`some ""` behave alike below), and the optional `usage` object with its
optional token fields. -/
structure Frame where
  deltaContent : Option String
  usage : Option (Option Nat × Option Nat)
deriving Repr, DecidableEq

/-- `prompt_tokens = usage.get("prompt_tokens", prompt_tokens)` when `usage`
is truthy. -/
def updPT (f : Frame) (pt : Nat) : Nat :=
  match f.usage with
  | some u => u.1.getD pt
  | none => pt

/-- `completion_tokens = usage.get("completion_tokens", completion_tokens)`
when `usage` is truthy. -/
def updCT (f : Frame) (ct : Nat) : Nat :=
  match f.usage with
  | some u => u.2.getD ct
  | none => ct

/-- The `async for line in response.aiter_lines()` loop (lines 327–384):
empty lines are skipped, non-`data: ` lines are skipped, `[DONE]` yields the
terminal `done` event and breaks, a parse failure is skipped, and otherwise a
non-empty delta is accumulated and yielded and usage fields update the token
counters. -/
def processLines (parse : String → Option Frame) :
    List String → String → Nat → Nat → List StreamEvent
  | [], _, _, _ => []
  | line :: rest, acc, pt, ct =>
    if line = "" then processLines parse rest acc pt ct
    else if line.startsWith "data: " then
      let ds := line.drop 6
      if ds.trim = "[DONE]" then [StreamEvent.done acc pt ct]
      else
        match parse ds with
        | none => processLines parse rest acc pt ct
        | some f =>
          match f.deltaContent with
          | some c =>
            if c ≠ "" then
              StreamEvent.content c ::
                processLines parse rest (acc ++ c) (updPT f pt) (updCT f ct)
            else processLines parse rest acc (updPT f pt) (updCT f ct)
          | none => processLines parse rest acc (updPT f pt) (updCT f ct)
    else processLines parse rest acc pt ct

/-- `stream_chat_completion`: with no API key configured it raises before
streaming; with a non-200 upstream status it raises `OpenRouterError` carrying
the decoded body and the status code — the `except OpenRouterError: raise`
clause (line 391–392) re-raises it past the `error`-yielding handlers — and
otherwise the SSE lines are processed into events. -/
def streamChatCompletion (parse : String → Option Frame) (apiKey : String)
    (status : Nat) (body : String) (lines : List String) :
    Except ORError (List StreamEvent) :=
  if apiKey = "" then .error (mkORError "OpenRouter API key not configured" none)
  else if status ≠ 200 then
    .error (mkORError ("Chat completion failed: " ++ body) (some status))
  else .ok (processLines parse lines "" 0 0)

/-- C2 counterexample: at a concrete call with a configured key and upstream
status 500, `stream_chat_completion` does not yield any event list (in
particular no terminal `error` event): it raises `OpenRouterError` to the
caller, refuting the claim at this input. -/
theorem streamChatCompletion_counterexample :
    ¬ ∃ evs, streamChatCompletion (fun _ => none) "sk-test" 500 "upstream down" []
      = .ok evs := by
  intro h
  rcases h with ⟨evs, h⟩
  simp [streamChatCompletion] at h

/-- C2 (amended): for every call with a configured API key, if the upstream
HTTP status is not 200 the stream raises `OpenRouterError` — message built
from the response body, `status_code` set — to the caller instead of yielding
a terminal `error` event (the yielding handlers cover only
`httpx.HTTPStatusError` and unexpected exceptions, and the explicit
`except OpenRouterError: raise` re-raises this one). -/
theorem streamChatCompletion_non200_raises (parse : String → Option Frame)
    (apiKey : String) (status : Nat) (body : String) (lines : List String)
    (hk : apiKey ≠ "") (hs : status ≠ 200) :
    streamChatCompletion parse apiKey status body lines
      = .error (mkORError ("Chat completion failed: " ++ body) (some status)) := by
  unfold streamChatCompletion
  rw [if_neg hk, if_pos hs]

/-- Witness for C2's amended theorem at a concrete non-200 response. -/
theorem streamChatCompletion_non200_raises_witness :
    ("sk-test" : String) ≠ "" ∧ (500 : Nat) ≠ 200 ∧
      streamChatCompletion (fun _ => none) "sk-test" 500 "upstream down" []
        = .error ⟨"OpenRouter API error: Chat completion failed: upstream down",
            some 500⟩ :=
  ⟨by decide, by decide,
    streamChatCompletion_non200_raises (fun _ => none) "sk-test" 500 "upstream down" []
      (by decide) (by decide)⟩

end OpenRouter

/-! ## Ingestion pipeline + reaper — `src/backend/app/services/file_processor.py`
and `src/backend/app/services/ingestion_reaper.py`

A knowledge-file row is a record; each database mutation performed by
`FileProcessorService` (`create_file_record`, `_register_attempt`,
`_mark_retry_or_failed`, the `ready` path of `process_file`,
`reprocess_file`) and by `IngestionReaper` (`_reap_stuck_files`,
`_retry_pending_files`, per file) is a function on that record.  Timestamps
are `Int` minutes; text extraction, chunking and embedding are external to
the state machine (only their success/failure matters, which is who calls
which transition). -/

namespace Ingestion

/-- Knowledge-file lifecycle status. -/
inductive FStatus where
  | pending
  | processing
  | indexing
  | ready
  | failed
deriving Repr, DecidableEq

/-- The columns of a `knowledge_files` row that the pipeline and the reaper
read or write. -/
structure KFile where
  status : FStatus
  attemptCount : Nat
  maxAttempts : Nat
  processingStartedAt : Option Int
  nextRetryAt : Option Int
  lastError : Option String
  errorMessage : Option String
  chunkCount : Nat
  createdAt : Int
deriving Repr, DecidableEq

/-- Python's `x or default` for an optional string: `None` and `""` are both
falsy. -/
def pyOr (o : Option String) (d : String) : String :=
  match o with
  | some s => if s = "" then d else s
  | none => d

/-- `backoff_minutes[j]` for `backoff_minutes = [5, 15, 45]` with Python
indexing (`j = -1` wraps to the last element; `j` is always in `-1..2` at the
call site). -/
def backoffAt (j : Int) : Int :=
  if j < 0 then 45 else ([5, 15, 45] : List Int).getD j.toNat 0

/-- `create_file_record` (file_processor.py lines 134–172): a fresh row is
born in status `processing` with `attempt_count = 0`, `max_attempts = 3` and
`processing_started_at = now`. -/
def createFileRecord (t : Int) : KFile :=
  ⟨.processing, 0, 3, some t, none, none, none, 0, t⟩

/-- `_register_attempt` (lines 202–209). -/
def registerAttempt (t : Int) (f : KFile) : KFile :=
  { f with
      attemptCount := f.attemptCount + 1
      processingStartedAt := some t
      nextRetryAt := none
      lastError := none
      status := .processing }

/-- `update_file_status(file_id, "indexing")` as called from `process_file`
(line 252). -/
def markIndexing (f : KFile) : KFile :=
  { f with status := .indexing }

/-- `_mark_retry_or_failed` (lines 211–228): terminal `failed` when attempts
are exhausted, otherwise back to `pending` with a backoff retry; both arms
set `error_message` and `last_error`. -/
def markRetryOrFailed (t : Int) (err : String) (f : KFile) : KFile :=
  if f.maxAttempts ≤ f.attemptCount then
    { f with status := .failed, errorMessage := some err, lastError := some err }
  else
    { f with
        status := .pending
        errorMessage := some err
        lastError := some err
        nextRetryAt := some (t + backoffAt (min ((f.attemptCount : Int) - 1) 2)) }

/-- The success tail of `process_file` (lines 291–295):
`update_file_status(file_id, "ready", chunk_count=…)` followed by clearing
`next_retry_at` and `last_error` (note `error_message` is left as is, since
`update_file_status` only writes it when non-`None`). -/
def markReady (chunks : Nat) (f : KFile) : KFile :=
  { f with status := .ready, chunkCount := chunks, nextRetryAt := none, lastError := none }

/-- `reprocess_file` (lines 428–457): reset to `pending`, due immediately. -/
def reprocessFile (t : Int) (f : KFile) : KFile :=
  { f with
      status := .pending
      nextRetryAt := some t
      lastError := some "Manual reprocess requested" }

/-- One file's treatment by `IngestionReaper._reap_stuck_files` (lines
62–109): the query selects rows with `status == "processing"`,
`processing_started_at IS NOT NULL` and `processing_started_at < now − 15min`;
a selected row gets `attempt_count += 1` and is marked `failed` (with
`last_error = last_error or "Processing timed out after max attempts"`,
`next_retry_at = None`) when attempts are exhausted, else `pending` with
`next_retry_at = now + 5·3^(attempt_count−1)` minutes and
`processing_started_at` cleared.  Any other row is untouched. -/
def stuckStale (now : Int) : Option Int → Bool
  | some s => decide (s < now - 15)
  | none => false

def reapStuckOne (now : Int) (f : KFile) : KFile :=
  if f.status = .processing ∧ stuckStale now f.processingStartedAt = true then
    if f.maxAttempts ≤ f.attemptCount + 1 then
      { f with
          attemptCount := f.attemptCount + 1
          status := .failed
          lastError := some (pyOr f.lastError "Processing timed out after max attempts")
          nextRetryAt := none }
    else
      { f with
          attemptCount := f.attemptCount + 1
          status := .pending
          nextRetryAt := some (now + ((5 * 3 ^ f.attemptCount : Nat) : Int))
          processingStartedAt := none }
  else f

/-- One file's treatment by `IngestionReaper._retry_pending_files` (lines
111–142): rows with `status == "pending"`, a non-null `next_retry_at ≤ now`
and `attempt_count < max_attempts` are put back into `processing` with
`processing_started_at = now`.  (The dispatched `process_file` run is a
separate `registerAttempt`-led sequence.) -/
def retryDue (now : Int) : Option Int → Bool
  | some r => decide (r ≤ now)
  | none => false

def retryPendingOne (now : Int) (f : KFile) : KFile :=
  if f.status = .pending ∧ retryDue now f.nextRetryAt = true ∧
      f.attemptCount < f.maxAttempts then
    { f with
        status := .processing
        processingStartedAt := some now
        nextRetryAt := none }
  else f

/-- One transition of the per-file ingestion state machine: any file-processor
mutation or either reaper action, at any time and with any error text. -/
inductive Step : KFile → KFile → Prop where
  | register (t : Int) (f : KFile) : Step f (registerAttempt t f)
  | indexing (f : KFile) : Step f (markIndexing f)
  | retryOrFailed (t : Int) (err : String) (f : KFile) : Step f (markRetryOrFailed t err f)
  | ready (n : Nat) (f : KFile) : Step f (markReady n f)
  | reprocess (t : Int) (f : KFile) : Step f (reprocessFile t f)
  | reapStuck (now : Int) (f : KFile) : Step f (reapStuckOne now f)
  | retryPending (now : Int) (f : KFile) : Step f (retryPendingOne now f)

/-- States of a knowledge file reachable from upload through any interleaving
of processor attempts and reaper ticks. -/
inductive Reachable : KFile → Prop where
  | init (t : Int) : Reachable (createFileRecord t)
  | step {f f' : KFile} : Reachable f → Step f f' → Reachable f'

/-- The invariant that does hold on `failed` rows. -/
def FailedInv (f : KFile) : Prop :=
  f.status = .failed → f.maxAttempts ≤ f.attemptCount ∧ f.lastError ≠ none

/-- The reaper's stale-reclaim either leaves a file alone, demotes it to
`pending`, or fails it with the attempt bound reached and `last_error` set. -/
theorem reapStuckOne_shape (now : Int) (f : KFile) :
    ∃ g, reapStuckOne now f = g ∧ (g = f ∨ g.status = .pending ∨
      (g.status = .failed ∧ g.maxAttempts ≤ g.attemptCount ∧ g.lastError ≠ none)) := by
  unfold reapStuckOne
  by_cases hc : f.status = .processing ∧ stuckStale now f.processingStartedAt = true
  · rw [if_pos hc]
    by_cases hm : f.maxAttempts ≤ f.attemptCount + 1
    · rw [if_pos hm]
      exact ⟨_, rfl, Or.inr (Or.inr ⟨rfl, hm, by simp⟩)⟩
    · rw [if_neg hm]
      exact ⟨_, rfl, Or.inr (Or.inl rfl)⟩
  · rw [if_neg hc]
    exact ⟨f, rfl, Or.inl rfl⟩

/-- The retry dispatcher either leaves a file alone or moves it to
`processing`. -/
theorem retryPendingOne_shape (now : Int) (f : KFile) :
    ∃ g, retryPendingOne now f = g ∧ (g = f ∨ g.status = .processing) := by
  unfold retryPendingOne
  by_cases hc : f.status = .pending ∧ retryDue now f.nextRetryAt = true ∧
      f.attemptCount < f.maxAttempts
  · rw [if_pos hc]
    exact ⟨_, rfl, Or.inr rfl⟩
  · rw [if_neg hc]
    exact ⟨f, rfl, Or.inl rfl⟩

theorem failedInv_step {f f' : KFile} (hs : Step f f') (hi : FailedInv f) : FailedInv f' := by
  cases hs with
  | register t f => intro h; simp [registerAttempt] at h
  | indexing f => intro h; simp [markIndexing] at h
  | retryOrFailed t err f =>
    intro h
    unfold markRetryOrFailed at h ⊢
    by_cases hc : f.maxAttempts ≤ f.attemptCount
    · rw [if_pos hc] at h ⊢
      exact ⟨hc, by simp⟩
    · rw [if_neg hc] at h
      simp at h
  | ready n f => intro h; simp [markReady] at h
  | reprocess t f => intro h; simp [reprocessFile] at h
  | reapStuck now f =>
    intro h
    rcases reapStuckOne_shape now f with ⟨g, hg, hcase⟩
    rw [hg] at h ⊢
    rcases hcase with heq | hp | hfl
    · rw [heq] at h ⊢; exact hi h
    · rw [hp] at h; simp at h
    · exact ⟨hfl.2.1, hfl.2.2⟩
  | retryPending now f =>
    intro h
    rcases retryPendingOne_shape now f with ⟨g, hg, hcase⟩
    rw [hg] at h ⊢
    rcases hcase with heq | hp
    · rw [heq] at h ⊢; exact hi h
    · rw [hp] at h; simp at h

theorem failedInv_reachable {f : KFile} (h : Reachable f) : FailedInv f := by
  induction h with
  | init t => intro hx; simp [createFileRecord] at hx
  | step _ hs ih => exact failedInv_step hs ih

/-- C3 counterexample: a reachable `failed` row with `error_message` null.
The trace: upload at t=0, then three reaper reclaims (t=16, 37, 68) with two
retry dispatches in between (t=21, 52) — the reaper's exhaustion path sets
`last_error` but never `error_message`, refuting the claim. -/
theorem failed_errorMessage_counterexample :
    ∃ f : KFile, Reachable f ∧ f.status = .failed ∧ f.errorMessage = none := by
  refine ⟨reapStuckOne 68 (retryPendingOne 52 (reapStuckOne 37 (retryPendingOne 21
    (reapStuckOne 16 (createFileRecord 0))))), ?_, ?_, ?_⟩
  · exact Reachable.step (Reachable.step (Reachable.step (Reachable.step (Reachable.step
      (Reachable.init 0) (Step.reapStuck 16 _)) (Step.retryPending 21 _))
      (Step.reapStuck 37 _)) (Step.retryPending 52 _)) (Step.reapStuck 68 _)
  · decide
  · decide

/-- C3 (amended): in every reachable state of the ingestion state machine,
every knowledge file with status `failed` has `attempt_count ≥ max_attempts`
and `last_error` non-null.  (`error_message` is guaranteed non-null only on
the processor's failure path, not on the reaper's, which writes `last_error`
alone.) -/
theorem reachable_failed_invariant (f : KFile) (h : Reachable f)
    (hf : f.status = .failed) :
    f.maxAttempts ≤ f.attemptCount ∧ f.lastError ≠ none :=
  failedInv_reachable h hf

/-- Witness for C3's amended theorem on the concrete reaper-exhaustion
trace. -/
theorem reachable_failed_invariant_witness :
    (reapStuckOne 68 (retryPendingOne 52 (reapStuckOne 37 (retryPendingOne 21
      (reapStuckOne 16 (createFileRecord 0)))))).maxAttempts ≤
      (reapStuckOne 68 (retryPendingOne 52 (reapStuckOne 37 (retryPendingOne 21
        (reapStuckOne 16 (createFileRecord 0)))))).attemptCount ∧
    (reapStuckOne 68 (retryPendingOne 52 (reapStuckOne 37 (retryPendingOne 21
      (reapStuckOne 16 (createFileRecord 0)))))).lastError ≠ none :=
  reachable_failed_invariant _
    (Reachable.step (Reachable.step (Reachable.step (Reachable.step (Reachable.step
      (Reachable.init 0) (Step.reapStuck 16 _)) (Step.retryPending 21 _))
      (Step.reapStuck 37 _)) (Step.retryPending 52 _)) (Step.reapStuck 68 _))
    (by decide)

/-- C4 counterexample: at tick `now = 100` the reaper leaves two stale files
untouched although the claim says both are reclaimed — a file in `indexing`
whose `processing_started_at = 0` is far past the cutoff, and a file in
`processing` whose `processing_started_at` is null but whose `created_at = 0`
(the claimed fallback stale reference) is far past the cutoff.  The query
filters on `status == "processing"` and `processing_started_at IS NOT NULL`
only. -/
theorem reapStuck_counterexample :
    ((⟨.indexing, 1, 3, some 0, none, none, none, 0, 0⟩ : KFile).status = .indexing ∧
      (0 : Int) < 100 - 15 ∧
      reapStuckOne 100 (⟨.indexing, 1, 3, some 0, none, none, none, 0, 0⟩ : KFile)
        = ⟨.indexing, 1, 3, some 0, none, none, none, 0, 0⟩) ∧
    ((⟨.processing, 1, 3, none, none, none, none, 0, 0⟩ : KFile).processingStartedAt = none ∧
      (⟨.processing, 1, 3, none, none, none, none, 0, 0⟩ : KFile).createdAt < 100 - 15 ∧
      reapStuckOne 100 (⟨.processing, 1, 3, none, none, none, none, 0, 0⟩ : KFile)
        = ⟨.processing, 1, 3, none, none, none, none, 0, 0⟩) := by
  decide

/-- C4 (amended): on every reaper tick, exactly the knowledge files whose
status is `processing` and whose `processing_started_at` is non-null and
older than `now − stale_processing_minutes` are reclaimed — demoted to
`pending` with a backoff retry of `5·3^(n−1)` minutes for the incremented
attempt count `n`, or to `failed` (with `last_error` defaulted) when the
incremented count reaches `max_attempts`.  Files in `indexing`, and files
with a null `processing_started_at` (whatever their `created_at`), are left
untouched. -/
theorem reapStuckOne_amended (now : Int) (f : KFile) :
    (∀ s, f.processingStartedAt = some s → f.status = .processing → s < now - 15 →
      (f.maxAttempts ≤ f.attemptCount + 1 →
        reapStuckOne now f = { f with
          attemptCount := f.attemptCount + 1
          status := .failed
          lastError := some (pyOr f.lastError "Processing timed out after max attempts")
          nextRetryAt := none }) ∧
      (¬ f.maxAttempts ≤ f.attemptCount + 1 →
        reapStuckOne now f = { f with
          attemptCount := f.attemptCount + 1
          status := .pending
          nextRetryAt := some (now + ((5 * 3 ^ f.attemptCount : Nat) : Int))
          processingStartedAt := none })) ∧
    (f.status ≠ .processing → reapStuckOne now f = f) ∧
    (f.processingStartedAt = none → reapStuckOne now f = f) ∧
    (∀ s, f.processingStartedAt = some s → ¬ s < now - 15 → reapStuckOne now f = f) := by
  refine ⟨?_, ?_, ?_, ?_⟩
  · intro s hs hp hlt
    have hsel : f.status = .processing ∧ stuckStale now f.processingStartedAt = true := by
      refine ⟨hp, ?_⟩
      rw [hs]
      simpa [stuckStale] using hlt
    constructor
    · intro hm
      unfold reapStuckOne
      rw [if_pos hsel, if_pos hm]
    · intro hm
      unfold reapStuckOne
      rw [if_pos hsel, if_neg hm]
  · intro hp
    unfold reapStuckOne
    rw [if_neg (by intro hsel; exact hp hsel.1)]
  · intro hs
    unfold reapStuckOne
    rw [if_neg (by intro hsel; rw [hs] at hsel; simp [stuckStale] at hsel)]
  · intro s hs hlt
    unfold reapStuckOne
    rw [if_neg (by intro hsel; rw [hs] at hsel; simp [stuckStale] at hsel; exact hlt hsel.2)]

/-- Witness for C4's amended theorem: a stale `processing` file with one prior
attempt is demoted to `pending` with a 15-minute backoff. -/
theorem reapStuckOne_amended_witness :
    ((⟨.processing, 1, 3, some 0, none, none, none, 0, 0⟩ : KFile).processingStartedAt
        = some 0 ∧
      (⟨.processing, 1, 3, some 0, none, none, none, 0, 0⟩ : KFile).status = .processing ∧
      (0 : Int) < 100 - 15 ∧ ¬ (3 : Nat) ≤ 1 + 1) ∧
    reapStuckOne 100 (⟨.processing, 1, 3, some 0, none, none, none, 0, 0⟩ : KFile)
      = ⟨.pending, 2, 3, none, some 115, none, none, 0, 0⟩ := by
  refine ⟨⟨rfl, rfl, by decide, by decide⟩, ?_⟩
  have h := (reapStuckOne_amended 100
    (⟨.processing, 1, 3, some 0, none, none, none, 0, 0⟩ : KFile)).1 0 rfl rfl (by decide)
  exact (h.2 (by decide)).trans (by decide)

end Ingestion

/-! ## Quota service — `src/backend/app/services/quota_service.py`

`QuotaService.check_quota` (lines 228–288).  The two (optional) quota rows
and the usage sums computed by `get_current_usage` are inputs; `Decimal`
money is `ℚ` and token counts are `Int`.  Python truthiness matters: a check
fires only when the limit is truthy (non-`None` *and* non-zero) and
`used ≥ limit`. -/

namespace Quota

/-- The limit columns of a `usage_quotas` row that `check_quota` reads. -/
structure UsageQuota where
  dailyCostLimit : Option ℚ
  monthlyCostLimit : Option ℚ
  dailyTokenLimit : Option Int
  monthlyTokenLimit : Option Int
deriving Repr, DecidableEq

/-- The four sums returned by `get_current_usage`. -/
structure Usage where
  dailyCost : ℚ
  monthlyCost : ℚ
  dailyTokens : Int
  monthlyTokens : Int
deriving Repr, DecidableEq

/-- The `QuotaCheckResult` dataclass. -/
structure QuotaCheckResult where
  allowed : Bool
  reason : Option String
  dailyCostUsed : ℚ
  dailyCostLimit : Option ℚ
  monthlyCostUsed : ℚ
  monthlyCostLimit : Option ℚ
  dailyTokensUsed : Int
  dailyTokenLimit : Option Int
  monthlyTokensUsed : Int
  monthlyTokenLimit : Option Int
deriving Repr, DecidableEq

/-- Python `if quota.limit and used >= quota.limit` for a `Decimal` limit:
`None` and `0` are falsy. -/
def hitQ (lim : Option ℚ) (used : ℚ) : Bool :=
  match lim with
  | some l => decide (l ≠ 0) && decide (l ≤ used)
  | none => false

/-- Python `if quota.limit and used >= quota.limit` for an integer limit. -/
def hitI (lim : Option Int) (used : Int) : Bool :=
  match lim with
  | some l => decide (l ≠ 0) && decide (l ≤ used)
  | none => false

/-- Quota resolution in `check_quota` (lines 240–245): the user-scope row, if
the caller has a user id and such a row exists, otherwise the global row. -/
def effectiveQuota (hasUserId : Bool) (userQuota globalQuota : Option UsageQuota) :
    Option UsageQuota :=
  if hasUserId then
    match userQuota with
    | some q => some q
    | none => globalQuota
  else globalQuota

/-- The body of `check_quota` after quota resolution: with no quota row
everything is allowed; otherwise the four limits are checked in order — daily
cost, monthly cost, daily tokens, monthly tokens — and the first truthy limit
at or below current usage denies with its reason.  All branches echo the
usage and the resolved limits. -/
def checkQuotaResolved : Option UsageQuota → Usage → QuotaCheckResult
  | none, u =>
    ⟨true, none, u.dailyCost, none, u.monthlyCost, none, u.dailyTokens, none,
      u.monthlyTokens, none⟩
  | some q, u =>
    if hitQ q.dailyCostLimit u.dailyCost then
      ⟨false, some "Daily cost limit exceeded", u.dailyCost, q.dailyCostLimit,
        u.monthlyCost, q.monthlyCostLimit, u.dailyTokens, q.dailyTokenLimit,
        u.monthlyTokens, q.monthlyTokenLimit⟩
    else if hitQ q.monthlyCostLimit u.monthlyCost then
      ⟨false, some "Monthly cost limit exceeded", u.dailyCost, q.dailyCostLimit,
        u.monthlyCost, q.monthlyCostLimit, u.dailyTokens, q.dailyTokenLimit,
        u.monthlyTokens, q.monthlyTokenLimit⟩
    else if hitI q.dailyTokenLimit u.dailyTokens then
      ⟨false, some "Daily token limit exceeded", u.dailyCost, q.dailyCostLimit,
        u.monthlyCost, q.monthlyCostLimit, u.dailyTokens, q.dailyTokenLimit,
        u.monthlyTokens, q.monthlyTokenLimit⟩
    else if hitI q.monthlyTokenLimit u.monthlyTokens then
      ⟨false, some "Monthly token limit exceeded", u.dailyCost, q.dailyCostLimit,
        u.monthlyCost, q.monthlyCostLimit, u.dailyTokens, q.dailyTokenLimit,
        u.monthlyTokens, q.monthlyTokenLimit⟩
    else
      ⟨true, none, u.dailyCost, q.dailyCostLimit, u.monthlyCost, q.monthlyCostLimit,
        u.dailyTokens, q.dailyTokenLimit, u.monthlyTokens, q.monthlyTokenLimit⟩

/-- `QuotaService.check_quota` (lines 228–288). -/
def checkQuota (hasUserId : Bool) (userQuota globalQuota : Option UsageQuota)
    (u : Usage) : QuotaCheckResult :=
  checkQuotaResolved (effectiveQuota hasUserId userQuota globalQuota) u

/-- The claim's notion of an applicable limit being reached: the limit is set
and is at or below current usage (no exception for a zero limit). -/
def limitReachedQ (lim : Option ℚ) (used : ℚ) : Prop :=
  ∃ l, lim = some l ∧ l ≤ used

/-- The amended notion: the limit is set, non-zero, and at or below current
usage. -/
def nzLimitReachedQ (lim : Option ℚ) (used : ℚ) : Prop :=
  ∃ l, lim = some l ∧ l ≠ 0 ∧ l ≤ used

/-- Integer-limit version of `nzLimitReachedQ`. -/
def nzLimitReachedI (lim : Option Int) (used : Int) : Prop :=
  ∃ l, lim = some l ∧ l ≠ 0 ∧ l ≤ used

theorem hitQ_eq_true_iff (lim : Option ℚ) (used : ℚ) :
    hitQ lim used = true ↔ nzLimitReachedQ lim used := by
  cases lim with
  | none => simp [hitQ, nzLimitReachedQ]
  | some l => simp [hitQ, nzLimitReachedQ]

theorem hitI_eq_true_iff (lim : Option Int) (used : Int) :
    hitI lim used = true ↔ nzLimitReachedI lim used := by
  cases lim with
  | none => simp [hitI, nzLimitReachedI]
  | some l => simp [hitI, nzLimitReachedI]

instance (lim : Option ℚ) (used : ℚ) : Decidable (nzLimitReachedQ lim used) :=
  decidable_of_iff _ (hitQ_eq_true_iff lim used)

instance (lim : Option Int) (used : Int) : Decidable (nzLimitReachedI lim used) :=
  decidable_of_iff _ (hitI_eq_true_iff lim used)

/-- Spec-side denial condition (the amended claim's words): some applicable
limit is set, non-zero, and at or below current usage. -/
def specDenied : Option UsageQuota → Usage → Prop
  | some q, u =>
    nzLimitReachedQ q.dailyCostLimit u.dailyCost ∨
      nzLimitReachedQ q.monthlyCostLimit u.monthlyCost ∨
      nzLimitReachedI q.dailyTokenLimit u.dailyTokens ∨
      nzLimitReachedI q.monthlyTokenLimit u.monthlyTokens
  | none, _ => False

/-- Spec-side reason: the first reached dimension in precedence order daily
cost, monthly cost, daily tokens, monthly tokens. -/
def specReason : Option UsageQuota → Usage → Option String
  | some q, u =>
    if nzLimitReachedQ q.dailyCostLimit u.dailyCost then
      some "Daily cost limit exceeded"
    else if nzLimitReachedQ q.monthlyCostLimit u.monthlyCost then
      some "Monthly cost limit exceeded"
    else if nzLimitReachedI q.dailyTokenLimit u.dailyTokens then
      some "Daily token limit exceeded"
    else if nzLimitReachedI q.monthlyTokenLimit u.monthlyTokens then
      some "Monthly token limit exceeded"
    else none
  | none, _ => none

/-- C5 counterexample: a global quota with `daily_cost_limit_usd = 0` and zero
usage.  The limit is set and `0 ≤ 0`, so the claim requires a denial, but
`check_quota` allows: `Decimal("0")` is falsy in `if quota.daily_cost_limit_usd
and …`, so a zero limit imposes no bound. -/
theorem checkQuota_counterexample :
    limitReachedQ (some 0) (0 : ℚ) ∧
      (checkQuota false none (some ⟨some 0, none, none, none⟩) ⟨0, 0, 0, 0⟩).allowed
        = true := by
  constructor
  · exact ⟨0, rfl, le_refl 0⟩
  · decide

/-- C5 (amended): the admission check denies if and only if some applicable
limit is set, non-zero, and `≤` the corresponding current usage (a zero limit
is falsy in Python and so imposes no bound, like an absent one); the denial
reason is the first reached dimension in the order daily cost, monthly cost,
daily tokens, monthly tokens; and when the caller has a user id and a
user-scope quota row exists it replaces the global quota entirely. -/
theorem checkQuota_amended (hasUserId : Bool) (uq gq : Option UsageQuota) (u : Usage) :
    ((checkQuota hasUserId uq gq u).allowed = false ↔
      specDenied (effectiveQuota hasUserId uq gq) u) ∧
    (checkQuota hasUserId uq gq u).reason = specReason (effectiveQuota hasUserId uq gq) u := by
  unfold checkQuota
  cases hq : effectiveQuota hasUserId uq gq with
  | none => exact ⟨by simp [checkQuotaResolved, specDenied], by simp [checkQuotaResolved, specReason]⟩
  | some q =>
    simp only [checkQuotaResolved, specDenied, specReason]
    by_cases h1 : hitQ q.dailyCostLimit u.dailyCost = true
    · rw [if_pos h1]
      refine ⟨⟨fun _ => Or.inl ((hitQ_eq_true_iff _ _).mp h1), fun _ => rfl⟩, ?_⟩
      rw [if_pos ((hitQ_eq_true_iff _ _).mp h1)]
    · rw [if_neg h1]
      have n1 : ¬ nzLimitReachedQ q.dailyCostLimit u.dailyCost :=
        fun hn => h1 ((hitQ_eq_true_iff _ _).mpr hn)
      by_cases h2 : hitQ q.monthlyCostLimit u.monthlyCost = true
      · rw [if_pos h2]
        refine ⟨⟨fun _ => Or.inr (Or.inl ((hitQ_eq_true_iff _ _).mp h2)),
          fun _ => rfl⟩, ?_⟩
        rw [if_neg n1, if_pos ((hitQ_eq_true_iff _ _).mp h2)]
      · rw [if_neg h2]
        have n2 : ¬ nzLimitReachedQ q.monthlyCostLimit u.monthlyCost :=
          fun hn => h2 ((hitQ_eq_true_iff _ _).mpr hn)
        by_cases h3 : hitI q.dailyTokenLimit u.dailyTokens = true
        · rw [if_pos h3]
          refine ⟨⟨fun _ => Or.inr (Or.inr (Or.inl ((hitI_eq_true_iff _ _).mp h3))),
            fun _ => rfl⟩, ?_⟩
          rw [if_neg n1, if_neg n2, if_pos ((hitI_eq_true_iff _ _).mp h3)]
        · rw [if_neg h3]
          have n3 : ¬ nzLimitReachedI q.dailyTokenLimit u.dailyTokens :=
            fun hn => h3 ((hitI_eq_true_iff _ _).mpr hn)
          by_cases h4 : hitI q.monthlyTokenLimit u.monthlyTokens = true
          · rw [if_pos h4]
            refine ⟨⟨fun _ => Or.inr (Or.inr (Or.inr ((hitI_eq_true_iff _ _).mp h4))),
              fun _ => rfl⟩, ?_⟩
            rw [if_neg n1, if_neg n2, if_neg n3, if_pos ((hitI_eq_true_iff _ _).mp h4)]
          · rw [if_neg h4]
            have n4 : ¬ nzLimitReachedI q.monthlyTokenLimit u.monthlyTokens :=
              fun hn => h4 ((hitI_eq_true_iff _ _).mpr hn)
            refine ⟨⟨fun hfalse => absurd hfalse (by simp), fun hd => ?_⟩, ?_⟩
            · rcases hd with h | h | h | h
              · exact absurd h n1
              · exact absurd h n2
              · exact absurd h n3
              · exact absurd h n4
            · rw [if_neg n1, if_neg n2, if_neg n3, if_neg n4]

end Quota

/-! ## Chat orchestrator — `src/backend/app/services/conversation_service.py`

Conversations, messages and assistants are records; the database is a list of
conversations; identifiers are `Nat`.  `ConversationService.get_conversation`
(lines 78–111) loads by id and applies the ownership check
`if user_id and not is_admin and conversation.user_id != user_id`. -/

namespace Conversations

/-- The assistant columns `send_message` reads. -/
structure Assistant where
  id : Nat
  name : String
  instructions : String
  model : String
  temperature : ℚ
  maxTokens : Nat
deriving Repr, DecidableEq

/-- A `messages` row (the columns the orchestrator reads or writes);
`tokensUsed` is the `(prompt_tokens, completion_tokens)` pair of the
`tokens_used` JSON blob. -/
structure Msg where
  id : Nat
  role : String
  content : String
  model : Option String
  tokensUsed : Option (Nat × Nat)
deriving Repr, DecidableEq

/-- A `conversations` row with its loaded messages. -/
structure Conversation where
  id : Nat
  assistantId : Option Nat
  userId : Option Nat
  title : String
  messages : List Msg
deriving Repr, DecidableEq

/-- `ConversationNotFoundError(conversation_id)`. -/
inductive ConvError where
  | notFound (cid : Nat)
deriving Repr, DecidableEq

/-- The `select(Conversation).where(Conversation.id == conversation_id)`
lookup. -/
def findConversation (db : List Conversation) (cid : Nat) : Option Conversation :=
  db.find? (fun c => c.id == cid)

/-- The ownership guard
`user_id and not is_admin and conversation.user_id != user_id`. -/
def ownershipDenied (userId : Option Nat) (isAdmin : Bool) (convUserId : Option Nat) : Bool :=
  match userId with
  | some u => !isAdmin && !(convUserId == some u)
  | none => false

/-- `get_conversation` once the row lookup result is at hand: a missing row
and a foreign row both raise `ConversationNotFoundError` with the requested
id. -/
def getConversationFound :
    Option Conversation → Nat → Option Nat → Bool → Except ConvError Conversation
  | none, cid, _, _ => .error (.notFound cid)
  | some conv, cid, userId, isAdmin =>
    if ownershipDenied userId isAdmin conv.userId then .error (.notFound cid)
    else .ok conv

/-- `ConversationService.get_conversation`. -/
def getConversation (db : List Conversation) (cid : Nat) (userId : Option Nat)
    (isAdmin : Bool) : Except ConvError Conversation :=
  getConversationFound (findConversation db cid) cid userId isAdmin

/-- C6: a non-admin caller with user id `u` requesting a conversation whose
`user_id` differs gets `ConversationNotFoundError` carrying the requested id —
byte-for-byte the outcome of requesting a nonexistent conversation, so
existence never leaks across the ownership boundary — while an admin caller
(with any or no user id) gets the conversation. -/
theorem getConversation_ownership (db : List Conversation) (cid u : Nat)
    (c : Conversation) (hc : findConversation db cid = some c)
    (hne : c.userId ≠ some u) :
    getConversation db cid (some u) false = .error (.notFound cid) ∧
    (∀ (db2 : List Conversation) (v : Option Nat) (adm : Bool),
      findConversation db2 cid = none →
      getConversation db2 cid v adm = .error (.notFound cid)) ∧
    (∀ v : Option Nat, getConversation db cid v true = .ok c) := by
  refine ⟨?_, ?_, ?_⟩
  · unfold getConversation
    rw [hc]
    simp only [getConversationFound]
    rw [if_pos (by simp [ownershipDenied, hne])]
  · intro db2 v adm h2
    unfold getConversation
    rw [h2]
    rfl
  · intro v
    unfold getConversation
    rw [hc]
    simp only [getConversationFound]
    rw [if_neg (by cases v <;> simp [ownershipDenied])]

/-- Witness for C6's theorem: user 7 requesting user 5's conversation. -/
theorem getConversation_ownership_witness :
    (findConversation [⟨1, some 9, some 5, "New Conversation", []⟩] 1
        = some ⟨1, some 9, some 5, "New Conversation", []⟩ ∧
      (⟨1, some 9, some 5, "New Conversation", []⟩ : Conversation).userId ≠ some 7) ∧
    getConversation [⟨1, some 9, some 5, "New Conversation", []⟩] 1 (some 7) false
      = .error (.notFound 1) ∧
    getConversation [⟨1, some 9, some 5, "New Conversation", []⟩] 1 (some 7) true
      = .ok ⟨1, some 9, some 5, "New Conversation", []⟩ := by
  have h := getConversation_ownership [⟨1, some 9, some 5, "New Conversation", []⟩] 1 7
    ⟨1, some 9, some 5, "New Conversation", []⟩ (by decide) (by decide)
  exact ⟨⟨by decide, by decide⟩, h.1, h.2.2 (some 7)⟩

end Conversations

/-! ## Credential vault — `src/backend/app/services/api_key_service.py`

Provider keys are rows in a list (ordered as stored; `session.add` appends);
`APIKeyService.rotate_key` (lines 163–195) is a function from the store to
the new store plus the created row.  The `encrypt_value(new_api_key,
self.secret_key)` call is an explicit function parameter (the encryption
module itself is modelled in the `Encryption` namespace). -/

namespace ApiKeys

/-- `APIKeyProvider`. -/
inductive Provider where
  | openrouter
  | openai
  | anthropic
  | google
  | azure
  | custom
deriving Repr, DecidableEq

/-- `APIKeyStatus`. -/
inductive KeyStatus where
  | valid
  | invalid
  | untested
deriving Repr, DecidableEq

/-- An `api_keys` row (the columns `rotate_key` reads or writes). -/
structure APIKey where
  id : Nat
  provider : Provider
  name : String
  encryptedKey : String
  isActive : Bool
  isDefault : Bool
  testStatus : KeyStatus
  rotatedFromId : Option Nat
deriving Repr, DecidableEq

/-- `get_key`: `select(APIKey).where(APIKey.id == key_id)`. -/
def getKey (db : List APIKey) (keyId : Nat) : Option APIKey :=
  db.find? (fun k => k.id == keyId)

/-- `rotate_key` once the lookup result is at hand: build the successor row
(reading `key.is_default` before any mutation), deactivate the predecessor
and clear its default flag, and append the new row (`session.add`). -/
def rotateKeyFound (encrypt : String → String) (db : List APIKey) (keyId : Nat)
    (newApiKey : String) (newId : Nat) : Option APIKey → Option (List APIKey × APIKey)
  | none => none
  | some key =>
    some
      (db.map (fun k =>
          if k.id == keyId then { k with isActive := false, isDefault := false } else k)
        ++ [⟨newId, key.provider, key.name, encrypt newApiKey, true, key.isDefault,
            .untested, some key.id⟩],
       ⟨newId, key.provider, key.name, encrypt newApiKey, true, key.isDefault,
        .untested, some key.id⟩)

/-- `APIKeyService.rotate_key`. -/
def rotateKey (encrypt : String → String) (db : List APIKey) (keyId : Nat)
    (newApiKey : String) (newId : Nat) : Option (List APIKey × APIKey) :=
  rotateKeyFound encrypt db keyId newApiKey newId (getKey db keyId)

/-- `find?` by id commutes with mapping an id-preserving update over the
store. -/
theorem find?_map_keyId (g : APIKey → APIKey) (hg : ∀ k, (g k).id = k.id)
    (db : List APIKey) (kid : Nat) :
    (db.map g).find? (fun k => k.id == kid) = (db.find? (fun k => k.id == kid)).map g := by
  induction db with
  | nil => rfl
  | cons a l ih =>
    simp only [List.map_cons, List.find?]
    rw [hg a]
    cases h : (a.id == kid) with
    | true => rfl
    | false => exact ih

/-- C7: rotating key `A` to a fresh id yields a successor row `B` with
`rotated_from_id = A.id`, `B.is_default` equal to `A`'s prior default flag and
`B` active; the stored predecessor is deactivated with its default flag
cleared (so of `{A, B}` exactly `B` is active); and both rows remain
queryable by id afterwards. -/
theorem rotateKey_spec (encrypt : String → String) (db : List APIKey)
    (keyId newId : Nat) (newApiKey : String) (A : APIKey)
    (hA : getKey db keyId = some A) (hfresh : ∀ k ∈ db, k.id ≠ newId) :
    ∃ db' B, rotateKey encrypt db keyId newApiKey newId = some (db', B) ∧
      B.rotatedFromId = some A.id ∧ B.isDefault = A.isDefault ∧ B.isActive = true ∧
      B.id = newId ∧
      getKey db' keyId = some { A with isActive := false, isDefault := false } ∧
      getKey db' newId = some B ∧
      ({ A with isActive := false, isDefault := false } : APIKey).isActive = false ∧
      ({ A with isActive := false, isDefault := false } : APIKey).isDefault = false := by
  have hg : ∀ k : APIKey,
      ((fun k => if k.id == keyId then
        ({ k with isActive := false, isDefault := false } : APIKey) else k) k).id = k.id := by
    intro k
    by_cases h : (k.id == keyId) = true
    · simp [h]
    · simp [h]
  have hA' : List.find? (fun k => k.id == keyId) db = some A := hA
  have hbeq : (A.id == keyId) = true := by simpa using List.find?_some hA'
  unfold rotateKey
  rw [hA]
  simp only [rotateKeyFound]
  refine ⟨_, _, rfl, ?_⟩
  refine ⟨by trivial, by trivial, by trivial, by trivial, ?_, ?_, by trivial, by trivial⟩
  · unfold getKey
    rw [List.find?_append, find?_map_keyId _ hg db keyId, hA']
    simp [hbeq]
    exact fun hne2 => absurd (by simpa using hbeq) hne2
  · unfold getKey
    rw [List.find?_append]
    have hnone : (db.map (fun k =>
        if k.id == keyId then
          ({ k with isActive := false, isDefault := false } : APIKey) else k)).find?
          (fun k => k.id == newId) = none := by
      rw [List.find?_eq_none]
      intro x hx
      rcases List.mem_map.mp hx with ⟨k, hk, rfl⟩
      rw [hg k]
      simpa using hfresh k hk
    rw [hnone]
    simp [List.find?]

/-- Witness for C7's theorem: rotating the single stored key 1 to id 2. -/
theorem rotateKey_spec_witness :
    ∃ db' B,
      rotateKey (fun s => s)
        [⟨1, .openrouter, "main", "enc-old", true, true, .valid, none⟩] 1 "sk2" 2
        = some (db', B) ∧
      B.rotatedFromId
        = some (⟨1, .openrouter, "main", "enc-old", true, true, .valid, none⟩ : APIKey).id ∧
      B.isDefault
        = (⟨1, .openrouter, "main", "enc-old", true, true, .valid, none⟩ : APIKey).isDefault ∧
      B.isActive = true ∧ B.id = 2 ∧
      getKey db' 1 = some { (⟨1, .openrouter, "main", "enc-old", true, true, .valid,
        none⟩ : APIKey) with isActive := false, isDefault := false } ∧
      getKey db' 2 = some B ∧
      ({ (⟨1, .openrouter, "main", "enc-old", true, true, .valid, none⟩ : APIKey) with
        isActive := false, isDefault := false } : APIKey).isActive = false ∧
      ({ (⟨1, .openrouter, "main", "enc-old", true, true, .valid, none⟩ : APIKey) with
        isActive := false, isDefault := false } : APIKey).isDefault = false :=
  rotateKey_spec (fun s => s)
    [⟨1, .openrouter, "main", "enc-old", true, true, .valid, none⟩] 1 2 "sk2"
    ⟨1, .openrouter, "main", "enc-old", true, true, .valid, none⟩ rfl (by decide)

end ApiKeys

/-! ## Encryption at rest — `src/backend/app/core/encryption.py`

Python strings are modelled as `List Char`.  The Fernet cipher (external
`cryptography` library, keyed by `derive_key(secret_key)`) is an explicit
`Cipher` parameter: `enc secret plaintext` is
`Fernet(derive_key(secret)).encrypt(plaintext)` and `dec secret token` its
decryption, `none` standing for `InvalidToken`.  The module's own logic — the
`"enc:"` marker handling — is translated directly. -/

namespace Encryption

/-- Python strings for this module. -/
abbrev Str := List Char

/-- `ENCRYPTED_PREFIX = "enc:"`. -/
def encTag : Str := ['e', 'n', 'c', ':']

/-- The external authenticated symmetric cipher keyed by the process
secret. -/
structure Cipher where
  enc : Str → Str → Str
  dec : Str → Str → Option Str

/-- `encrypt_value` (lines 22–35): encrypt, then mark with the `enc:`
discriminator. -/
def encryptValue (c : Cipher) (plaintext secret : Str) : Str :=
  encTag ++ c.enc secret plaintext

/-- `is_encrypted` (lines 60–62). -/
def isEncrypted (v : Str) : Bool :=
  encTag.isPrefixOf v

/-- `decrypt_value` (lines 38–57): strip the marker when present, then
decrypt. -/
def decryptValue (c : Cipher) (ciphertext secret : Str) : Option Str :=
  c.dec secret (if isEncrypted ciphertext then ciphertext.drop encTag.length else ciphertext)

/-- `encrypt_if_needed` (lines 65–79). -/
def encryptIfNeeded (c : Cipher) : Option Str → Str → Option Str
  | none, _ => none
  | some v, secret => if isEncrypted v then some v else some (encryptValue c v secret)

/-- C8: for a cipher whose decryption inverts its encryption (the Fernet
contract), `decrypt_value ∘ encrypt_value` is the identity on plaintexts;
`encrypt_value` output always carries the `enc:` marker; and
`encrypt_if_needed` is idempotent (the second application sees the marker and
returns its input unchanged — this holds for any cipher). -/
theorem encryption_spec (c : Cipher)
    (hc : ∀ k p, c.dec k (c.enc k p) = some p)
    (x k : Str) (v : Option Str) :
    decryptValue c (encryptValue c x k) k = some x ∧
    isEncrypted (encryptValue c x k) = true ∧
    encryptIfNeeded c (encryptIfNeeded c v k) k = encryptIfNeeded c v k := by
  have hpre : ∀ t : Str, isEncrypted (encTag ++ t) = true := by
    intro t
    simp [isEncrypted, encTag, List.isPrefixOf]
  refine ⟨?_, ?_, ?_⟩
  · unfold decryptValue encryptValue
    rw [if_pos (hpre _), List.drop_left, hc]
  · exact hpre _
  · cases v with
    | none => rfl
    | some w =>
      by_cases hw : isEncrypted w = true
      · simp only [encryptIfNeeded]
        rw [if_pos hw]
        simp only [encryptIfNeeded]
        rw [if_pos hw]
      · simp only [encryptIfNeeded]
        rw [if_neg hw]
        simp only [encryptIfNeeded]
        rw [if_pos (show isEncrypted (encryptValue c w k) = true from hpre _)]

/-- Witness for C8's theorem with a concrete cipher (identity encryption,
which satisfies the round-trip hypothesis definitionally). -/
theorem encryption_spec_witness :
    decryptValue ⟨fun _ p => p, fun _ t => some t⟩
        (encryptValue ⟨fun _ p => p, fun _ t => some t⟩ ['a'] ['k']) ['k'] = some ['a'] ∧
    isEncrypted (encryptValue ⟨fun _ p => p, fun _ t => some t⟩ ['a'] ['k']) = true ∧
    encryptIfNeeded ⟨fun _ p => p, fun _ t => some t⟩
        (encryptIfNeeded ⟨fun _ p => p, fun _ t => some t⟩ (some ['b']) ['k']) ['k']
      = encryptIfNeeded ⟨fun _ p => p, fun _ t => some t⟩ (some ['b']) ['k'] :=
  encryption_spec ⟨fun _ p => p, fun _ t => some t⟩ (fun _ _ => rfl) ['a'] ['k'] (some ['b'])

end Encryption

/-! ## RAG composer — `src/backend/app/services/rag_service.py`

`RAGService.retrieve` (lines 58–119) receives the vector store's answer —
parallel lists of documents, metadatas and distances, here pre-zipped into
triples in store order — converts distances to similarities, filters by the
threshold, and sorts descending (Python's stable `list.sort` with
`reverse=True`, modelled by a stable merge sort on the flipped order).
Similarity scores are `ℚ` (the float arithmetic `1 - distance / 2` carried
exactly).  `format_context` (lines 121–153) packs `[Source N]`-tagged chunks
greedily under the 4-chars-per-token budget, and `build_system_prompt`
(lines 155–179) falls back to the plain prompt on empty context. -/

namespace RAG

/-- The metadata fields `retrieve` reads from a stored chunk. -/
structure ChunkMeta where
  fileId : Option String
  chunkIndex : Option Nat
deriving Repr, DecidableEq

/-- The `RetrievedChunk` dataclass (the raw metadata dict is represented by
the two fields read from it). -/
structure RetrievedChunk where
  text : String
  score : ℚ
  fileId : String
  chunkIndex : Nat
deriving Repr, DecidableEq

/-- The `for i, (doc, metadata, distance) in enumerate(zip(…))` loop: each
distance becomes `similarity = 1 - distance / 2` and a chunk is kept exactly
when `similarity >= min_threshold`. -/
def buildChunks (threshold : ℚ) : List (String × ChunkMeta × ℚ) → Nat → List RetrievedChunk
  | [], _ => []
  | e :: rest, i =>
    if threshold ≤ 1 - e.2.2 / 2 then
      ⟨e.1, 1 - e.2.2 / 2, e.2.1.fileId.getD "", e.2.1.chunkIndex.getD i⟩ ::
        buildChunks threshold rest (i + 1)
    else
      buildChunks threshold rest (i + 1)

/-- `chunks.sort(key=lambda x: x.score, reverse=True)`: a stable sort that
puts higher scores first. -/
def sortChunks (l : List RetrievedChunk) : List RetrievedChunk :=
  l.mergeSort (fun a b => decide (b.score ≤ a.score))

/-- `RAGService.retrieve` from the store's answer onward (`enumerate` starts
at 0). -/
def retrieve (threshold : ℚ) (results : List (String × ChunkMeta × ℚ)) :
    List RetrievedChunk :=
  sortChunks (buildChunks threshold results 0)

/-- `chunk_text = f"[Source {i}]\n{chunk.text}"`. -/
def sourceText (i : Nat) (t : String) : String :=
  "[Source " ++ toString i ++ "]\n" ++ t

/-- The packing loop of `format_context` (lines 143–151): stop (`break`) when
`total_chars + len(chunk_text) > max_chars`, else take the tagged chunk and
advance `total_chars` by its length plus 2 for the joiner. -/
def packChunks (maxChars : Nat) : List RetrievedChunk → Nat → Nat → List String
  | [], _, _ => []
  | ch :: rest, i, totalChars =>
    if maxChars < totalChars + (sourceText i ch.text).length then []
    else
      sourceText i ch.text ::
        packChunks maxChars rest (i + 1) (totalChars + (sourceText i ch.text).length + 2)

/-- `format_context`: empty retrieval gives `""`, otherwise the packed tagged
chunks joined by blank lines, under the `max_tokens * 4` character budget
(`enumerate(chunks, 1)` starts the source numbering at 1). -/
def formatContext (chunks : List RetrievedChunk) (maxTokens : Nat) : String :=
  if chunks.isEmpty then ""
  else String.intercalate "\n\n" (packChunks (maxTokens * 4) chunks 1 0)

/-- The `RAG_PROMPT_TEMPLATE` with its three placeholders substituted. -/
def ragPromptTemplate (n instr ctx : String) : String :=
  "You are " ++ n ++ ".\n\n" ++ instr ++
    "\n\nUse the following reference materials to inform your response. " ++
    "Only use information from these materials when relevant:\n\n---\n" ++ ctx ++
    "\n---\n\nIf the reference materials don\x27t contain relevant information, " ++
    "rely on your general knowledge but indicate this to the user."

/-- `build_system_prompt` (lines 155–179). -/
def buildSystemPrompt (name instructions context : String) : String :=
  if context = "" then "You are " ++ name ++ ".\n\n" ++ instructions
  else ragPromptTemplate name instructions context

/-- Spec side: the `[Source N]`-tagged texts of the chunks, numbering from
`i`. -/
def taggedTexts : List RetrievedChunk → Nat → List String
  | [], _ => []
  | ch :: rest, i => sourceText i ch.text :: taggedTexts rest (i + 1)

/-- Spec side: the character count of texts joined by a two-character
separator. -/
def joinedLen : List String → Nat
  | [] => 0
  | [t] => t.length
  | t :: u :: rest => t.length + 2 + joinedLen (u :: rest)

/-- Spec side: greedy packing in the claim's words — keep appending the next
text while the cumulative character count of the joined context stays within
the budget, stopping at the first text that would push it past. -/
def specPackGo (maxChars : Nat) : List String → List String → List String
  | cur, [] => cur
  | cur, t :: rest =>
    if maxChars < joinedLen (cur ++ [t]) then cur
    else specPackGo maxChars (cur ++ [t]) rest

/-- Spec side: the greedily packed prefix of the given texts. -/
def specPack (maxChars : Nat) (texts : List String) : List String :=
  specPackGo maxChars [] texts

theorem joinedLen_append_singleton (cur : List String) (t : String) :
    joinedLen (cur ++ [t])
      = (if cur.isEmpty then 0 else joinedLen cur + 2) + t.length := by
  induction cur with
  | nil => simp [joinedLen]
  | cons a l ih =>
    cases l with
    | nil => simp [joinedLen]
    | cons b m =>
      have ih2 := ih
      rw [List.cons_append] at ih2
      simp only [List.isEmpty_cons, Bool.false_eq_true, if_false] at ih2
      rw [List.cons_append, List.cons_append]
      simp only [joinedLen, List.isEmpty_cons, Bool.false_eq_true, if_false]
      rw [ih2]
      omega

/-- The code's packing loop computes exactly the spec's greedy packing: the
running `total_chars` equals the joined length of the already accepted texts
plus the two joiner characters the next acceptance will add. -/
theorem specPackGo_eq_packChunks (maxChars : Nat) (chunks : List RetrievedChunk) :
    ∀ (i : Nat) (cur : List String),
      specPackGo maxChars cur (taggedTexts chunks i)
        = cur ++ packChunks maxChars chunks i
            (if cur.isEmpty then 0 else joinedLen cur + 2) := by
  induction chunks with
  | nil => intro i cur; simp [taggedTexts, specPackGo, packChunks]
  | cons ch rest ih =>
    intro i cur
    simp only [taggedTexts, specPackGo, packChunks]
    rw [joinedLen_append_singleton]
    by_cases hcond : maxChars <
        (if cur.isEmpty then 0 else joinedLen cur + 2) + (sourceText i ch.text).length
    · rw [if_pos hcond, if_pos hcond]
      simp
    · rw [if_neg hcond, if_neg hcond, ih (i + 1) (cur ++ [sourceText i ch.text])]
      have harg : (if (cur ++ [sourceText i ch.text]).isEmpty then 0
            else joinedLen (cur ++ [sourceText i ch.text]) + 2)
          = (if cur.isEmpty then 0 else joinedLen cur + 2)
              + (sourceText i ch.text).length + 2 := by
        rw [joinedLen_append_singleton]
        simp
      rw [harg]
      simp

theorem joinedLen_cons (a : String) (as : List String) :
    joinedLen (a :: as) = a.length + (as.map (fun t => 2 + t.length)).sum := by
  induction as generalizing a with
  | nil => simp [joinedLen]
  | cons b m ih =>
    simp only [joinedLen, List.map_cons, List.sum_cons, ih b]
    omega

theorem intercalate_go_length (s : String) :
    ∀ (l : List String) (acc : String),
      (String.intercalate.go acc s l).length
        = acc.length + (l.map (fun t => s.length + t.length)).sum := by
  intro l
  induction l with
  | nil => intro acc; simp [String.intercalate.go]
  | cons a as ih =>
    intro acc
    simp only [String.intercalate.go, ih, List.map_cons, List.sum_cons,
      String.length_append]
    omega

/-- The spec-side cumulative character count is the character count of the
actually joined context. -/
theorem joinedLen_eq_intercalate_length (l : List String) :
    joinedLen l = (String.intercalate "\n\n" l).length := by
  cases l with
  | nil => rfl
  | cons a as =>
    show joinedLen (a :: as) = (String.intercalate.go a "\n\n" as).length
    rw [intercalate_go_length, joinedLen_cons]
    have hsep : ("\n\n" : String).length = 2 := rfl
    simp [hsep]

theorem mem_buildChunks {threshold : ℚ} :
    ∀ {res : List (String × ChunkMeta × ℚ)} {i : Nat} {c : RetrievedChunk},
      c ∈ buildChunks threshold res i →
      threshold ≤ c.score ∧ ∃ e ∈ res, c.text = e.1 ∧ c.score = 1 - e.2.2 / 2 := by
  intro res
  induction res with
  | nil => intro i c h; simp [buildChunks] at h
  | cons e rest ih =>
    intro i c h
    simp only [buildChunks] at h
    by_cases hs : threshold ≤ 1 - e.2.2 / 2
    · rw [if_pos hs] at h
      rcases List.mem_cons.mp h with rfl | hmem
      · exact ⟨hs, e, List.mem_cons_self e rest, rfl, rfl⟩
      · rcases ih hmem with ⟨h1, e2, he2, ht, hsc⟩
        exact ⟨h1, e2, List.mem_cons_of_mem e he2, ht, hsc⟩
    · rw [if_neg hs] at h
      rcases ih h with ⟨h1, e2, he2, ht, hsc⟩
      exact ⟨h1, e2, List.mem_cons_of_mem e he2, ht, hsc⟩

/-- C9: the retrieval result is sorted by similarity descending and is a
permutation of the survivors of the threshold filter; every retrieved chunk's
score is `1 − d/2` for the raw distance `d` of some store hit and is at least
the threshold; the packed context is exactly the claim's greedy packing of
`[Source N]`-tagged chunks under the `max_context_tokens × 4` character
budget (with the cumulative count measured on the joined context string);
and with no surviving context the system prompt is exactly
`"You are <name>.\n\n<instructions>"`. -/
theorem rag_pipeline (threshold : ℚ) (results : List (String × ChunkMeta × ℚ))
    (maxTokens : Nat) (chunks : List RetrievedChunk) (name instructions : String) :
    List.Sorted (fun a b : RetrievedChunk => b.score ≤ a.score)
      (retrieve threshold results) ∧
    (retrieve threshold results).Perm (buildChunks threshold results 0) ∧
    (∀ c ∈ retrieve threshold results,
      threshold ≤ c.score ∧ ∃ e ∈ results, c.text = e.1 ∧ c.score = 1 - e.2.2 / 2) ∧
    formatContext chunks maxTokens
      = String.intercalate "\n\n" (specPack (maxTokens * 4) (taggedTexts chunks 1)) ∧
    (∀ texts : List String, joinedLen texts = (String.intercalate "\n\n" texts).length) ∧
    buildSystemPrompt name instructions ""
      = "You are " ++ name ++ ".\n\n" ++ instructions := by
  have hperm : (retrieve threshold results).Perm (buildChunks threshold results 0) :=
    List.mergeSort_perm _ _
  refine ⟨?_, hperm, ?_, ?_, joinedLen_eq_intercalate_length, rfl⟩
  · have h := @List.sorted_mergeSort RetrievedChunk
      (fun a b => decide (b.score ≤ a.score))
      (fun a b c h1 h2 => by
        simp only [decide_eq_true_eq] at h1 h2 ⊢
        exact le_trans h2 h1)
      (fun a b => by
        simp only [Bool.or_eq_true, decide_eq_true_eq]
        exact le_total b.score a.score)
      (buildChunks threshold results 0)
    exact h.imp (fun hab => by simpa using hab)
  · intro c hc
    exact mem_buildChunks (hperm.mem_iff.mp hc)
  · unfold formatContext specPack
    cases chunks with
    | nil => rfl
    | cons ch rest =>
      rw [specPackGo_eq_packChunks]
      simp

end RAG

/-! ## `send_message` — `src/backend/app/services/conversation_service.py`
lines 273–437

The per-turn orchestration as a function of its oracles: the quota check's
outcome (`Except.error` models `check_quota` raising, `.ok` a returned
`QuotaCheckResult`), the RAG prompt builder's outcome (`.error` models
`get_augmented_prompt` raising, triggering the fallback prompt), and the LLM
stream's outcome (`.error` models `stream_chat_completion` raising at its
first pull, `.ok` its yielded events; the request payload built from the
history and prompt is absorbed into this oracle).  The result carries the
SSE events in order, the message rows inserted, the conversation title after
the turn, and the usage rows logged. -/

namespace Conversations

/-- The event objects `send_message` yields (the SSE payloads). -/
inductive SendEvent where
  | errorEv (error : String) (quotaExceeded : Bool)
  | userMessage (messageId : Nat)
  | assistantStart (messageId : Nat)
  | contentEv (content : String)
  | doneEv (messageId : Nat) (promptTokens completionTokens : Nat)
deriving Repr, DecidableEq

/-- What one `send_message` call emitted and wrote. -/
structure SendResult where
  events : List SendEvent
  newMessages : List Msg
  title : String
  usageLogged : List (Nat × Nat)
deriving Repr, DecidableEq

/-- Python's f-string rendering of an `Optional[str]`: `None` prints as
`"None"`. -/
def pyStrOptional (o : Option String) : String :=
  match o with
  | some s => s
  | none => "None"

/-- The `async for chunk in …stream_chat_completion(…)` loop (lines
379–415): forward `content` and accumulate it; on `done` remember the token
counts, log a usage row, and emit the done event with the reserved assistant
message id. -/
structure StreamRun where
  events : List SendEvent
  fullContent : String
  tokensUsed : Option (Nat × Nat)
  usageLogged : List (Nat × Nat)
deriving Repr, DecidableEq

def runStream (assistantMsgId : Nat) :
    List OpenRouter.StreamEvent → String → Option (Nat × Nat) → List (Nat × Nat) →
      StreamRun
  | [], acc, tok, logs => ⟨[], acc, tok, logs⟩
  | .content c :: rest, acc, tok, logs =>
    let r := runStream assistantMsgId rest (acc ++ c) tok logs
    ⟨.contentEv c :: r.events, r.fullContent, r.tokensUsed, r.usageLogged⟩
  | .done _ pt ct :: rest, acc, _, logs =>
    let r := runStream assistantMsgId rest acc (some (pt, ct)) (logs ++ [(pt, ct)])
    ⟨.doneEv assistantMsgId pt ct :: r.events, r.fullContent, r.tokensUsed, r.usageLogged⟩

/-- `title = content[:50].strip()`, with `"..."` appended when the content
was longer (lines 424–431). -/
def autoTitle (content : String) : String :=
  if 50 < content.length then (content.take 50).trim ++ "..." else (content.take 50).trim

/-- `send_message` after the quota stage: persist the user row and emit its
event, compose the prompt (falling back to the plain prompt when RAG
raises), reserve the empty assistant row and emit its event, then stream.
If the stream raises, the `except Exception` handler emits the error event
and the write-back inside the `try` is skipped, so the reserved row keeps its
empty content; otherwise the accumulated content and tokens are written back
and the still-default title is replaced. -/
def sendMessageAfterQuota (conv : Conversation) (asst : Assistant) (content : String)
    (modelOverride : Option String) (ragOutcome : Except Unit String)
    (streamOutcome : Except OpenRouter.ORError (List OpenRouter.StreamEvent))
    (nextId : Nat) : SendResult :=
  let userMsg : Msg := ⟨nextId, "user", content, none, none⟩
  let _systemPrompt : String :=
    match ragOutcome with
    | .ok p => p
    | .error _ => "You are " ++ asst.name ++ ".\n\n" ++ asst.instructions
  let model :=
    match modelOverride with
    | some m => if m = "" then asst.model else m
    | none => asst.model
  let assistantMsg : Msg := ⟨nextId + 1, "assistant", "", some model, none⟩
  match streamOutcome with
  | .error e =>
    ⟨[.userMessage nextId, .assistantStart (nextId + 1), .errorEv e.message false],
     [userMsg, assistantMsg], conv.title, []⟩
  | .ok evs =>
    let r := runStream (nextId + 1) evs "" none []
    let final : Msg :=
      { assistantMsg with content := r.fullContent, tokensUsed := r.tokensUsed }
    let newTitle :=
      if conv.title = "New Conversation" ∧ r.fullContent ≠ "" then autoTitle content
      else conv.title
    ⟨[.userMessage nextId, .assistantStart (nextId + 1)] ++ r.events,
     [userMsg, final], newTitle, r.usageLogged⟩

/-- `ConversationService.send_message`.  A conversation with no assistant
yields a single error event.  The quota stage (lines 298–316): a returned
denial yields the `quota_exceeded` error event and stops before anything is
persisted; an exception from the check is caught, logged and ignored. -/
def sendMessage (conv : Conversation) (assistant : Option Assistant) (content : String)
    (modelOverride : Option String)
    (quotaOutcome : Except String Quota.QuotaCheckResult)
    (ragOutcome : Except Unit String)
    (streamOutcome : Except OpenRouter.ORError (List OpenRouter.StreamEvent))
    (nextId : Nat) : SendResult :=
  match assistant with
  | none => ⟨[.errorEv "Assistant not found for this conversation" false], [],
      conv.title, []⟩
  | some asst =>
    match quotaOutcome with
    | .ok r =>
      if r.allowed then
        sendMessageAfterQuota conv asst content modelOverride ragOutcome streamOutcome
          nextId
      else
        ⟨[.errorEv ("Usage limit exceeded: " ++ pyStrOptional r.reason) true], [],
         conv.title, []⟩
    | .error _ =>
      sendMessageAfterQuota conv asst content modelOverride ragOutcome streamOutcome
        nextId

/-- C10: quota admission fails open.  When the quota check raises, the turn
is byte-for-byte the turn of an allowed check: the first events are the
persisted user message and the assistant reservation (streaming starts), the
first persisted row is the user message — no error event is emitted for the
failure.  Only an explicit not-allowed result stops the turn, as a single
`quota_exceeded` error event with nothing persisted. -/
theorem sendMessage_quota_fail_open (conv : Conversation) (asst : Assistant)
    (content : String) (modelOverride : Option String) (e : String)
    (ragOutcome : Except Unit String)
    (streamOutcome : Except OpenRouter.ORError (List OpenRouter.StreamEvent))
    (nextId : Nat) (r : Quota.QuotaCheckResult) :
    (sendMessage conv (some asst) content modelOverride (.error e) ragOutcome
        streamOutcome nextId
      = sendMessage conv (some asst) content modelOverride
          (.ok ⟨true, none, 0, none, 0, none, 0, none, 0, none⟩) ragOutcome
          streamOutcome nextId) ∧
    (∃ rest, (sendMessage conv (some asst) content modelOverride (.error e) ragOutcome
        streamOutcome nextId).events
      = SendEvent.userMessage nextId :: SendEvent.assistantStart (nextId + 1) :: rest) ∧
    ((sendMessage conv (some asst) content modelOverride (.error e) ragOutcome
        streamOutcome nextId).newMessages.head?
      = some ⟨nextId, "user", content, none, none⟩) ∧
    (r.allowed = false →
      sendMessage conv (some asst) content modelOverride (.ok r) ragOutcome
          streamOutcome nextId
        = ⟨[.errorEv ("Usage limit exceeded: " ++ pyStrOptional r.reason) true], [],
           conv.title, []⟩) := by
  refine ⟨rfl, ?_, ?_, ?_⟩
  · unfold sendMessage sendMessageAfterQuota
    cases streamOutcome with
    | error e2 => exact ⟨_, rfl⟩
    | ok evs => exact ⟨_, rfl⟩
  · unfold sendMessage sendMessageAfterQuota
    cases streamOutcome with
    | error e2 => rfl
    | ok evs => rfl
  · intro hfalse
    unfold sendMessage
    simp [hfalse]

/-- Witness for C10's theorem at a concrete conversation, stream and denied
quota result. -/
theorem sendMessage_quota_fail_open_witness :
    (sendMessage ⟨1, some 2, some 3, "New Conversation", []⟩
        (some ⟨2, "Helper", "Be helpful.", "m1", 1, 256⟩) "Hello" none
        (.error "db down") (.error ())
        (.ok [.content "Hi", .done "Hi" 3 2]) 10
      = sendMessage ⟨1, some 2, some 3, "New Conversation", []⟩
          (some ⟨2, "Helper", "Be helpful.", "m1", 1, 256⟩) "Hello" none
          (.ok ⟨true, none, 0, none, 0, none, 0, none, 0, none⟩) (.error ())
          (.ok [.content "Hi", .done "Hi" 3 2]) 10) ∧
    (∃ rest, (sendMessage ⟨1, some 2, some 3, "New Conversation", []⟩
        (some ⟨2, "Helper", "Be helpful.", "m1", 1, 256⟩) "Hello" none
        (.error "db down") (.error ())
        (.ok [.content "Hi", .done "Hi" 3 2]) 10).events
      = SendEvent.userMessage 10 :: SendEvent.assistantStart (10 + 1) :: rest) ∧
    ((sendMessage ⟨1, some 2, some 3, "New Conversation", []⟩
        (some ⟨2, "Helper", "Be helpful.", "m1", 1, 256⟩) "Hello" none
        (.error "db down") (.error ())
        (.ok [.content "Hi", .done "Hi" 3 2]) 10).newMessages.head?
      = some ⟨10, "user", "Hello", none, none⟩) ∧
    sendMessage ⟨1, some 2, some 3, "New Conversation", []⟩
        (some ⟨2, "Helper", "Be helpful.", "m1", 1, 256⟩) "Hello" none
        (.ok ⟨false, some "Daily cost limit exceeded", 0, none, 0, none, 0, none,
          0, none⟩)
        (.error ()) (.ok [.content "Hi", .done "Hi" 3 2]) 10
      = ⟨[.errorEv "Usage limit exceeded: Daily cost limit exceeded" true], [],
         "New Conversation", []⟩ := by
  have h := sendMessage_quota_fail_open ⟨1, some 2, some 3, "New Conversation", []⟩
    ⟨2, "Helper", "Be helpful.", "m1", 1, 256⟩ "Hello" none "db down" (.error ())
    (.ok [.content "Hi", .done "Hi" 3 2]) 10
    ⟨false, some "Daily cost limit exceeded", 0, none, 0, none, 0, none, 0, none⟩
  exact ⟨h.1, h.2.1, h.2.2.1, h.2.2.2 rfl⟩

end Conversations

end AIHub
